import Mathlib

/-!
# Verification of the gcc_multienv benchmark kernel (src/bench_kernel.py)

Shallow embedding of the IPC/pipeline kernel in `src/bench_kernel.py`.

Modelling conventions:
* Python `str`/`bytes` values are modelled as `List Nat` of byte values
  (the kernel's function names, benchmark names and socket addresses are
  ASCII, where `len` on `str` coincides with the byte length).
* Python `dict` (insertion-ordered, update-in-place) is modelled as an
  association list with `lookupA` / `insertA`.
* Machine integers are `Nat`/`Int`; 32-bit overflow inside SHA-256 is
  explicit `% 4294967296`.
* Fallible code paths (`exit(1)`, uncaught exceptions, `KeyError`) are
  `Except KErr`.
* `hashlib.sha256` and `base64.b64encode(digest, b"-_")` are external
  library calls; they are embedded as executable Lean functions
  (`sha256`, `b64encodeUrl`) following the published algorithms.
* Runtime profile values (`float(pieces[0])`, `float(pieces[2])`, the
  `0.0` defaults) are modelled as `Rat`; no claim depends on IEEE-754
  rounding, only on defaulting/zeroing structure.
-/

/-! ## Byte-string helpers -/

/-- Decimal digits of `n`, most significant first, as ASCII bytes;
auxiliary fuel-indexed worker (`fuel ≥ n` suffices). -/
def decimalDigitsRev : Nat → Nat → List Nat
  | 0, _ => []
  | fuel + 1, n => if n = 0 then [] else (n % 10 + 48) :: decimalDigitsRev fuel (n / 10)

/-- Python `str(n)` for a nonnegative integer, as ASCII bytes. -/
def decimalRepr (n : Nat) : List Nat :=
  if n = 0 then [48] else (decimalDigitsRev (n + 1) n).reverse

/-- Python `int(s)` on a nonempty decimal-digit byte string. -/
def digitsToNat (l : List Nat) : Nat :=
  l.foldl (fun acc d => acc * 10 + (d - 48)) 0

/-- Python `fun_name.partition(".")[0]`: the prefix before the first
dot (byte 46), the whole string when no dot occurs. -/
def stripDot (s : List Nat) : List Nat := s.takeWhile (fun c => c != 46)

/-! ## SHA-256 (hashlib.sha256), executable over byte lists -/

/-- 2^32; all SHA-256 word arithmetic is reduced modulo this. -/
def M32 : Nat := 4294967296

/-- 32-bit right rotation of a word. -/
def rotr32 (n x : Nat) : Nat := ((x >>> n) ||| (x <<< (32 - n))) % M32

/-- The 64 SHA-256 round constants (FIPS 180-4), in decimal. -/
def shaK : List Nat :=
  [1116352408, 1899447441, 3049323471, 3921009573, 961987163, 1508970993,
   2453635748, 2870763221, 3624381080, 310598401, 607225278, 1426881987,
   1925078388, 2162078206, 2614888103, 3248222580, 3835390401, 4022224774,
   264347078, 604807628, 770255983, 1249150122, 1555081692, 1996064986,
   2554220882, 2821834349, 2952996808, 3210313671, 3336571891, 3584528711,
   113926993, 338241895, 666307205, 773529912, 1294757372, 1396182291,
   1695183700, 1986661051, 2177026350, 2456956037, 2730485921, 2820302411,
   3259730800, 3345764771, 3516065817, 3600352804, 4094571909, 275423344,
   430227734, 506948616, 659060556, 883997877, 958139571, 1322822218,
   1537002063, 1747873779, 1955562222, 2024104815, 2227730452, 2361852424,
   2428436474, 2756734187, 3204031479, 3329325298]

/-- The eight 32-bit words of SHA-256 working state. -/
structure Sha8 where
  a : Nat
  b : Nat
  c : Nat
  d : Nat
  e : Nat
  f : Nat
  g : Nat
  h : Nat

/-- SHA-256 initial hash value (FIPS 180-4), in decimal. -/
def shaInit : Sha8 :=
  ⟨1779033703, 3144134277, 1013904242, 2773480762,
   1359893119, 2600822924, 528734635, 1541459225⟩

/-- A 32-bit word as four big-endian bytes. -/
def wordBE4 (w : Nat) : List Nat := [w / 0x1000000 % 256, w / 0x10000 % 256, w / 256 % 256, w % 256]

/-- Group bytes into big-endian 32-bit words (trailing fragment dropped;
SHA-256 chunks are always a multiple of 4 bytes). -/
def bytesToWordsBE : List Nat → List Nat
  | a :: b :: c :: d :: rest => (a * 0x1000000 + b * 0x10000 + c * 256 + d) :: bytesToWordsBE rest
  | _ => []

/-- A 64-bit length as eight big-endian bytes. -/
def be64 (n : Nat) : List Nat :=
  [n / 2 ^ 56 % 256, n / 2 ^ 48 % 256, n / 2 ^ 40 % 256, n / 2 ^ 32 % 256,
   n / 2 ^ 24 % 256, n / 2 ^ 16 % 256, n / 2 ^ 8 % 256, n % 256]

/-- SHA-256 message padding: append 0x80, zero bytes to 56 mod 64, then
the bit length as a 64-bit big-endian integer. -/
def sha256Pad (msg : List Nat) : List Nat :=
  let zeros := (64 + 56 - (msg.length + 1) % 64) % 64
  msg ++ 0x80 :: (List.replicate zeros 0 ++ be64 (msg.length * 8))

/-- Split a byte list into 64-byte chunks. -/
def toChunks (l : List Nat) : List (List Nat) :=
  if h : l = [] then [] else l.take 64 :: toChunks (l.drop 64)
termination_by l.length
decreasing_by
  simp only [List.length_drop]
  have : 0 < l.length := List.length_pos.mpr h
  omega

/-- One step of the message-schedule extension: append word
`w[n] = w[n-16] + s0(w[n-15]) + w[n-7] + s1(w[n-2]) mod 2^32`. -/
def schedStep (ws : List Nat) : List Nat :=
  let n := ws.length
  let w15 := ws.getD (n - 15) 0
  let w2 := ws.getD (n - 2) 0
  let s0 := (rotr32 7 w15) ^^^ (rotr32 18 w15) ^^^ (w15 >>> 3)
  let s1 := (rotr32 17 w2) ^^^ (rotr32 19 w2) ^^^ (w2 >>> 10)
  ws ++ [(ws.getD (n - 16) 0 + s0 + ws.getD (n - 7) 0 + s1) % M32]

/-- Extend 16 schedule words to 64. -/
def fullSched (ws : List Nat) : List Nat :=
  (List.range 48).foldl (fun acc _ => schedStep acc) ws

/-- One SHA-256 compression round for round constant and schedule word `kw`. -/
def shaCompress (st : Sha8) (kw : Nat × Nat) : Sha8 :=
  let S1 := (rotr32 6 st.e) ^^^ (rotr32 11 st.e) ^^^ (rotr32 25 st.e)
  let ch := (st.e &&& st.f) ^^^ ((st.e ^^^ (M32 - 1)) &&& st.g)
  let t1 := (st.h + S1 + ch + kw.1 + kw.2) % M32
  let S0 := (rotr32 2 st.a) ^^^ (rotr32 13 st.a) ^^^ (rotr32 22 st.a)
  let maj := (st.a &&& st.b) ^^^ (st.a &&& st.c) ^^^ (st.b &&& st.c)
  let t2 := (S0 + maj) % M32
  ⟨(t1 + t2) % M32, st.a, st.b, st.c, (st.d + t1) % M32, st.e, st.f, st.g⟩

/-- Componentwise 32-bit addition of hash states. -/
def addSha8 (x y : Sha8) : Sha8 :=
  ⟨(x.a + y.a) % M32, (x.b + y.b) % M32, (x.c + y.c) % M32, (x.d + y.d) % M32,
   (x.e + y.e) % M32, (x.f + y.f) % M32, (x.g + y.g) % M32, (x.h + y.h) % M32⟩

/-- Process one 64-byte chunk: schedule extension, 64 compression rounds,
add back into the running state. -/
def processChunk (st : Sha8) (chunk : List Nat) : Sha8 :=
  addSha8 st ((shaK.zip (fullSched (bytesToWordsBE chunk))).foldl shaCompress st)

/-- Serialize the final state as the 32 big-endian digest bytes. -/
def sha8Bytes (s : Sha8) : List Nat :=
  wordBE4 s.a ++ wordBE4 s.b ++ wordBE4 s.c ++ wordBE4 s.d ++
  wordBE4 s.e ++ wordBE4 s.f ++ wordBE4 s.g ++ wordBE4 s.h

/-- SHA-256 digest of a byte string (hashlib.sha256(...).digest()). -/
def sha256 (msg : List Nat) : List Nat :=
  sha8Bytes ((toChunks (sha256Pad msg)).foldl processChunk shaInit)

/-! ## base64 with URL-safe altchars (base64.b64encode(digest, b"-_")) -/

/-- The 64-character base64 alphabet with altchars `-`/`_` in place of
`+`/`/`: `A`..`Z`, `a`..`z`, `0`..`9`, `-`, `_`. -/
def b64Alphabet : List Nat :=
  (List.range 26).map (· + 65) ++ (List.range 26).map (· + 97) ++
  (List.range 10).map (· + 48) ++ [45, 95]

/-- Alphabet character for a 6-bit group (out-of-range indices return
`A`; they never arise from byte input). -/
def b64char (n : Nat) : Nat := b64Alphabet.getD n 65

/-- base64 encoding with URL-safe altchars and `=` (byte 61) padding,
three input bytes per four output characters. -/
def b64encodeUrl : List Nat → List Nat
  | [] => []
  | [b] => [b64char (b / 4), b64char (b % 4 * 16), 61, 61]
  | [b, c] => [b64char (b / 4), b64char (b % 4 * 16 + c / 16), b64char (c % 16 * 4), 61]
  | b :: c :: d :: rest =>
      b64char (b / 4) :: b64char (b % 4 * 16 + c / 16) ::
      b64char (c % 16 * 4 + d / 64) :: b64char (d % 64) :: b64encodeUrl rest

/-! ## AddressCodec: encode_fun_name (src/bench_kernel.py lines 326-341) -/

/-- The kernel's identity: `self.args.bench_name` (bytes) and
`self.args.instance` (a nonnegative integer as passed by the launcher). -/
structure KernelId where
  bench : List Nat
  inst : Nat
deriving DecidableEq

/-- `encode_fun_name` (lines 326-341): strip the clone suffix after the
first dot, then hash-and-base64 when the name exceeds the address budget
`107 - len(bench_name) - len(str(instance)) - 2` or 100 characters;
otherwise return the stripped name. Python's `avail_length` variable is
inlined; the subtraction is over `Int` exactly as Python's can go
negative. -/
def encode_fun_name (kid : KernelId) (funName : List Nat) : List Nat :=
  if ((stripDot funName).length : Int) >
        107 - (kid.bench.length : Int) - ((decimalRepr kid.inst).length : Int) - 2
      ∨ (stripDot funName).length > 100
  then b64encodeUrl (sha256 (stripDot funName))
  else stripDot funName

/-- Modelled from the claim wording of C1: identical to
`encode_fun_name` except that the budget is computed from 108 rather
than 107. -/
def encodeSpec108 (kid : KernelId) (funName : List Nat) : List Nat :=
  if ((stripDot funName).length : Int) >
        108 - (kid.bench.length : Int) - ((decimalRepr kid.inst).length : Int) - 2
      ∨ (stripDot funName).length > 100
  then b64encodeUrl (sha256 (stripDot funName))
  else stripDot funName

/-- Modelled from the spec wording (amended to the code's constant 107):
keep the stripped name when it is within both the address budget and 100
characters, otherwise return the base64url-encoded SHA-256 digest. -/
def encodeSpecFixed (kid : KernelId) (funName : List Nat) : List Nat :=
  if ((stripDot funName).length : Int) ≤
        107 - (kid.bench.length : Int) - ((decimalRepr kid.inst).length : Int) - 2
      ∧ (stripDot funName).length ≤ 100
  then stripDot funName
  else b64encodeUrl (sha256 (stripDot funName))

/-- The canonical peer address for an encoded token: the abstract-namespace
name `\0<bench_name>:<token>_<instance>` (lines 174-176, 406-411). -/
def canonAddr (kid : KernelId) (tok : List Nat) : List Nat :=
  0 :: (kid.bench ++ [58] ++ tok ++ [95] ++ decimalRepr kid.inst)

/-! ## Association lists: Python's insertion-ordered dict -/

/-- Dict lookup: the value at the first (by key uniqueness, only)
binding of `k`. -/
def lookupA {α : Type} : List (List Nat × α) → List Nat → Option α
  | [], _ => none
  | p :: rest, k => if p.1 = k then some p.2 else lookupA rest k

/-- Dict assignment `m[k] = v`: update in place when the key exists,
append otherwise (Python dicts preserve insertion order). -/
def insertA {α : Type} : List (List Nat × α) → List Nat → α → List (List Nat × α)
  | [], k, v => [(k, v)]
  | p :: rest, k, v => if p.1 = k then (k, v) :: rest else p :: insertA rest k v

/-! ## EnvironmentRegistry: address validation and registration
(src/bench_kernel.py lines 343-419) -/

/-- Last index in `l` whose element satisfies `p`, or `none`. -/
def lastIndexWhere (p : Nat → Bool) (l : List Nat) : Option Nat :=
  ((l.enum.filter (fun q => p q.2)).map (fun q => q.1)).getLast?

/-- Python `re.match("\0(.*):(.*)_(\d*)", addr)` (line 374). Greedy,
unanchored at the right, `.` not matching newline (byte 10): the match
exists iff the address starts with NUL and, before the first newline,
contains a `:` with a later `_`; group 1 is everything before the last
such usable `:`, group 2 everything between it and the last `_` before
the first newline, group 3 the maximal digit run after that `_`
(possibly empty — `int` then raises). -/
def pyMatchAddr (addr : List Nat) : Option (List Nat × List Nat × List Nat) :=
  match addr with
  | 0 :: r =>
    let m := (r.findIdx? (fun c => c == 10)).getD r.length
    let region := r.take m
    match lastIndexWhere (fun c => c == 95) region with
    | none => none
    | some k =>
      match lastIndexWhere (fun c => c == 58) (region.take k) with
      | none => none
      | some j =>
        some (r.take j, (r.drop (j + 1)).take (k - j - 1),
              (r.drop (k + 1)).takeWhile (fun c => 48 ≤ c && c ≤ 57))
  | _ => none

/-- The kernel's fatal/abnormal terminations. Every constructor
corresponds to a path on which the Python process exits with status 1:
`exit(1)` calls in `validate_addr` / `compile_*`, or an exception
(`TypeError` on a failed regex match, `ValueError` on `int("")`,
`KeyError` on a missing embedding) that propagates uncaught. -/
inductive KErr
  | badBench
  | badInstance
  | badSymbol
  | pyError
  | gccStartup
  | gccBuild
  | missingEmbedding (k : List Nat)
deriving DecidableEq

/-- The process exit status produced by each abnormal termination. -/
def KErr.exitStatus : KErr → Nat := fun _ => 1

/-- `add_env_to_list` + `validate_addr` (lines 343-376): parse the sender
address, compare benchmark name, then instance number (Python converts
`int(parsed_addr[3])` before comparing, raising on an empty group), then
membership of the function token in the known symbol set; each mismatch
exits with status 1, otherwise the pass list is recorded under the
token. -/
def add_env_to_list (kid : KernelId) (syms : List (List Nat)) (passList : List Nat)
    (addr : List Nat) (active : List (List Nat × List Nat)) :
    Except KErr (List (List Nat × List Nat)) :=
  match pyMatchAddr addr with
  | none => .error .pyError
  | some (b, t, d) =>
    if b ≠ kid.bench then .error .badBench
    else if d = [] then .error .pyError
    else if digitsToNat d ≠ kid.inst then .error .badInstance
    else if syms.contains t then .ok (insertA active t passList)
    else .error .badSymbol

/-- The registration path of `gather_active_envs` (lines 386-400):
`active_funcs_lists` is reset to empty, then every registration received
in the collection window (first blocking receive plus the 5-second
settle drain, supplied here as the list `regs` of (payload, sender)
pairs) is validated and recorded. -/
def gather_regs (kid : KernelId) (syms : List (List Nat)) (regs : List (List Nat × List Nat)) :
    Except KErr (List (List Nat × List Nat)) :=
  regs.foldlM (fun acc r => add_env_to_list kid syms r.1 r.2 acc) []

/-! ## LivenessProber: the timeout branch of gather_active_envs
(lines 401-419) -/

/-- Outcome of one iteration of the outer gather loop. -/
inductive GatherOutcome
  | retryWaiting
  | exitCode (n : Nat)
deriving DecidableEq

/-- The probe loop (lines 403-416): send a zero-length datagram to each
known symbol's canonical address in declared order; the first accepted
delivery sets the flag and breaks. Returns the datagrams attempted (as
(payload, address) pairs, payloads all empty — `bytes(0)` is `b""`) and
the `afk_envs_exist` flag. `del` tells whether a send to an address is
accepted (a refused one raises, caught by the bare `except`). -/
def probe_pass (kid : KernelId) (del : List Nat → Bool) :
    List (List Nat) → List (List Nat × List Nat) × Bool
  | [] => ([], false)
  | s :: rest =>
    let a := canonAddr kid s
    if del a then ([(([] : List Nat), a)], true)
    else
      let r := probe_pass kid del rest
      ((([] : List Nat), a) :: r.1, r.2)

/-- The timeout branch of `gather_active_envs` (lines 401-419): after a
60-second first-wait timeout with zero registrations, run the probe
pass; loop back to waiting when some probe was deliverable, otherwise
`exit(0)`. -/
def gather_timeout_branch (kid : KernelId) (del : List Nat → Bool) (syms : List (List Nat)) :
    List (List Nat × List Nat) × GatherOutcome :=
  let r := probe_pass kid del syms
  (r.1, if r.2 then .retryWaiting else .exitCode 0)

/-! ## CompilerBridge (compile_for_size lines 421-472,
compile_instrumented lines 281-324) -/

/-- One query from the compiler subprocess: the raw function name it
sends, and the feature payload it will send after reading our reply. -/
structure GccQuery where
  raw : List Nat
  payload : List Nat
deriving DecidableEq

/-- `struct.pack("i", n)`: a 32-bit native-endian (little-endian on the
kernel's hosts) length tag. -/
def int32le (n : Nat) : List Nat := [n % 256, n / 256 % 256, n / 65536 % 256, n / 16777216 % 256]

/-- One exchange of the plain (size) build loop (lines 440-465): encode
the queried name; a found key answers with the exact stored pass-list
bytes and stores the length-tagged feature payload under the key; a
missing key answers with the single zero byte `bytes(1)` (the payload is
still received and discarded). Returns (reply, updated embeddings). -/
def size_pass_step (kid : KernelId) (active : List (List Nat × List Nat))
    (embs : List (List Nat × List Nat)) (q : GccQuery) : List Nat × List (List Nat × List Nat) :=
  match lookupA active (encode_fun_name kid q.raw) with
  | some pl => (pl, insertA embs (encode_fun_name kid q.raw) (int32le q.payload.length ++ q.payload))
  | none => (([0] : List Nat), embs)

/-- One exchange of the instrumented build loop (lines 300-317): same
replies as the plain build, but the received feature payload is bound to
a local and dropped — `self.embeddings` is not touched. Returns
(reply, embeddings unchanged). -/
def instrumented_step (kid : KernelId) (active : List (List Nat × List Nat))
    (embs : List (List Nat × List Nat)) (q : GccQuery) : List Nat × List (List Nat × List Nat) :=
  match lookupA active (encode_fun_name kid q.raw) with
  | some pl => (pl, embs)
  | none => (([0] : List Nat), embs)

/-- Inputs of one subprocess compilation: whether gcc died before its
socket appeared (readiness handshake, fatal), the query exchange, and
the final exit status (non-zero is fatal). -/
structure BuildInput where
  startupFail : Bool
  queries : List GccQuery
  exitCode : Nat

/-- `compile_for_size` (lines 421-472): reset `self.embeddings`, run the
exchange loop, fail on startup death or non-zero exit. -/
def compile_for_size (kid : KernelId) (active : List (List Nat × List Nat)) (inp : BuildInput) :
    Except KErr (List (List Nat × List Nat)) :=
  if inp.startupFail then .error .gccStartup
  else
    let embs := inp.queries.foldl (fun em q => (size_pass_step kid active em q).2) []
    if inp.exitCode ≠ 0 then .error .gccBuild else .ok embs

/-- `compile_instrumented` (lines 281-324): same protocol, but the
embeddings table is passed through untouched. -/
def compile_instrumented (kid : KernelId) (active : List (List Nat × List Nat))
    (embs0 : List (List Nat × List Nat)) (inp : BuildInput) :
    Except KErr (List (List Nat × List Nat)) :=
  if inp.startupFail then .error .gccStartup
  else
    let embs := inp.queries.foldl (fun em q => (instrumented_step kid active em q).2) embs0
    if inp.exitCode ≠ 0 then .error .gccBuild else .ok embs

/-! ## ProfileCollector (get_sizes lines 203-219, get_runtimes lines
221-279) and the benchmark descriptor (init lines 128-139) -/

/-- `get_sizes` (lines 203-219): `self.sizes` is reset, then each nm
output line contributes `sizes[encode(pieces[3])] = int(pieces[1])`;
lines are modelled at split-field granularity as (name, size) pairs. -/
def get_sizes (kid : KernelId) (nmInfo : List (List Nat × Nat)) : List (List Nat × Nat) :=
  nmInfo.foldl (fun m r => insertA m (encode_fun_name kid r.1) r.2) []

/-- The table-building tail of `get_runtimes` (lines 268-279):
`self.runtimes` is reset; when the gprof report contains the
" no time accumulated" line (`noTime`), every key of
`active_funcs_lists` is re-encoded and assigned `(0.0, 0.0)`; otherwise
the parsed flat-profile rows (name, percent, seconds) — fields
`pieces[-1]`, `pieces[0]`, `pieces[2]` after the 5-line header —
populate the table. -/
def get_runtimes (kid : KernelId) (active : List (List Nat × List Nat)) (noTime : Bool)
    (rows : List (List Nat × Rat × Rat)) : List (List Nat × (Rat × Rat)) :=
  if noTime then active.foldl (fun m p => insertA m (encode_fun_name kid p.1) ((0 : Rat), (0 : Rat))) []
  else rows.foldl (fun m r => insertA m (encode_fun_name kid r.1) r.2) []

/-- The runtime-pass gate in `kernel_loop` (lines 491-494):
`len(set(active_funcs_lists.keys()) & set(long_functions)) > 0`. -/
def cycleRunsInstrumented (active : List (List Nat × List Nat)) (longFuns : List (List Nat)) : Bool :=
  active.any (fun p => longFuns.contains p.1)

/-- Python `list.index` restricted to predicate search: the absolute
index (starting from accumulator `i`) of the first element satisfying
`p`, or `none` (where Python raises `ValueError`). -/
def firstIdxFrom {α : Type} (p : α → Bool) : Nat → List α → Option Nat
  | _, [] => none
  | i, x :: rest => if p x then some i else firstIdxFrom p (i + 1) rest

/-- The `functions:` marker line of benchmark_info.txt, as bytes. -/
def funMarker : List Nat := [102, 117, 110, 99, 116, 105, 111, 110, 115, 58]

/-- The `long_functions:` marker line of benchmark_info.txt, as bytes. -/
def longMarker : List Nat :=
  [108, 111, 110, 103, 95, 102, 117, 110, 99, 116, 105, 111, 110, 115, 58]

/-- The symbol-list initialization (init lines 128-139): the known
symbols are the encoded lines after the first `functions:` line (absence
raises, modelled as `none`); the long-running subset is the encoded
slice `lines[long_fun_index:index]` when `long_functions:` occurs, and
defaults to the whole symbol list when the marker is absent
(`ValueError` branch). -/
def initSymbols (kid : KernelId) (lines : List (List Nat)) :
    Option (List (List Nat) × List (List Nat)) :=
  match firstIdxFrom (fun l => l == funMarker) 0 lines with
  | none => none
  | some fi =>
    let benchSymbols := (lines.drop (fi + 1)).map (encode_fun_name kid)
    match firstIdxFrom (fun l => l == longMarker) 0 lines with
    | none => some (benchSymbols, benchSymbols)
    | some li => some (benchSymbols, ((lines.drop li).take (fi + 1 - li)).map (encode_fun_name kid))

/-! ## ResultDispatcher: sendout_profiles (lines 168-201) -/

/-- The result datagram for one peer, at record granularity: the stored
(already length-tagged) embedding bytes, then the packed
`(runtime_percent, runtime_sec, size)` profile record. -/
structure Datagram where
  emb : List Nat
  rtp : Rat
  rts : Rat
  size : Nat
deriving DecidableEq

/-- Observable events of the dispatch loop. -/
inductive SendEvent
  | sizeMissing (k : List Nat)
  | sent (addr : List Nat) (d : Datagram)
  | deliveryFailed (addr : List Nat)
deriving DecidableEq

/-- `sendout_profiles` (lines 168-201): for each key of the frozen
`active_funcs_lists`, in order: default a missing size to 0 with a
diagnostic; build the datagram from `self.embeddings[key]` (a missing
key raises `KeyError`, uncaught — modelled as `.error`), the runtime
with default `(0.0, 0.0)`, and the (possibly just defaulted) size; a
send whose delivery is refused (`ConnectionError`/`FileNotFoundError`)
is logged as `deliveryFailed` and the loop continues. Returns the event
list and the final (mutated) size table. -/
def sendout_profiles (kid : KernelId) (del : List Nat → Bool) :
    List (List Nat × List Nat) → List (List Nat × Nat) → List (List Nat × (Rat × Rat)) →
    List (List Nat × List Nat) → Except KErr (List SendEvent × List (List Nat × Nat))
  | [], sizes, _, _ => .ok ([], sizes)
  | p :: rest, sizes, rts, embs =>
    let addr := canonAddr kid p.1
    let warn : List SendEvent := if lookupA sizes p.1 = none then [.sizeMissing p.1] else []
    let sizes1 := if lookupA sizes p.1 = none then insertA sizes p.1 0 else sizes
    match lookupA embs p.1 with
    | none => .error (.missingEmbedding p.1)
    | some e =>
      let rt := (lookupA rts p.1).getD ((0 : Rat), (0 : Rat))
      let d : Datagram := ⟨e, rt.1, rt.2, (lookupA sizes1 p.1).getD 0⟩
      let ev := if del addr then SendEvent.sent addr d else .deliveryFailed addr
      match sendout_profiles kid del rest sizes1 rts embs with
      | .error er => .error er
      | .ok (evs, szF) => .ok (warn ++ ev :: evs, szF)

/-- The address of an attempted result delivery, `none` for diagnostic
events. -/
def attemptAddr : SendEvent → Option (List Nat)
  | .sent a _ => some a
  | .deliveryFailed a => some a
  | .sizeMissing _ => none

/-- The attempt the dispatch loop makes for key `k`, as predicted from
the tables the loop starts from (spec side of claim C2). -/
def expectedAttempt (kid : KernelId) (del : List Nat → Bool) (sizes : List (List Nat × Nat))
    (rts : List (List Nat × (Rat × Rat))) (embs : List (List Nat × List Nat))
    (k : List Nat) : SendEvent :=
  let addr := canonAddr kid k
  let rt := (lookupA rts k).getD ((0 : Rat), (0 : Rat))
  let d : Datagram := ⟨(lookupA embs k).getD [], rt.1, rt.2, (lookupA sizes k).getD 0⟩
  if del addr then .sent addr d else .deliveryFailed addr

/-- The full predicted event list of one dispatch cycle (spec side of
claim C2). -/
def expectedEvents (kid : KernelId) (del : List Nat → Bool) (sizes : List (List Nat × Nat))
    (rts : List (List Nat × (Rat × Rat))) (embs : List (List Nat × List Nat))
    (active : List (List Nat × List Nat)) : List SendEvent :=
  active.flatMap (fun p =>
    (if lookupA sizes p.1 = none then [SendEvent.sizeMissing p.1] else []) ++
    [expectedAttempt kid del sizes rts embs p.1])

/-! ## KernelLoop: cleanup (final_cleanup lines 150-166, kernel_loop
lines 474-505) and the per-cycle pipeline -/

/-- How the loop body terminated: `SystemExit` (from `exit(n)` or the
SIGTERM handler's `exit(1)`), `KeyboardInterrupt` (SIGINT), or any other
exception. All are caught by the `except (Exception, SystemExit,
KeyboardInterrupt)` clause (lines 503-505). -/
inductive ExitCause
  | systemExit (code : Nat)
  | keyboardInterrupt
  | otherError
deriving DecidableEq

/-- Side effects of the cleanup routine, in program order. -/
inductive CleanupEffect
  | printPassLists
  | waitGcc (timedOut : Bool)
  | rmtreeCwd (cwd : List Nat)
  | unlinkSocket (name : List Nat)
deriving DecidableEq

/-- The bytes of "/tmp". -/
def tmpRoot : List Nat := [47, 116, 109, 112]

/-- The bytes of "/run". -/
def runRoot : List Nat := [47, 114, 117, 110]

/-- `final_cleanup` (lines 150-166): dump the pass lists on
`SystemExit(1)`; wait on a live gcc subprocess for at most 30 seconds,
swallowing `TimeoutExpired`; then `shutil.rmtree` the working directory
when its absolute path starts with "/tmp" or "/run"
(`cwd.startswith(...)`), else unlink only the kernel's gcc socket. -/
def final_cleanup (e : ExitCause) (gccExists waitTimedOut : Bool) (cwd sock : List Nat) :
    List CleanupEffect :=
  (if e = .systemExit 1 then [CleanupEffect.printPassLists] else []) ++
  (if gccExists then [CleanupEffect.waitGcc waitTimedOut] else []) ++
  (if tmpRoot.isPrefixOf cwd || runRoot.isPrefixOf cwd
   then [CleanupEffect.rmtreeCwd cwd] else [CleanupEffect.unlinkSocket sock])

/-- The `except` clause of `kernel_loop` (lines 503-505): whatever
exception ends the loop body, run `final_cleanup` once, then re-raise
the same exception. -/
def kernel_loop_exit (e : ExitCause) (gccExists waitTimedOut : Bool) (cwd sock : List Nat) :
    List CleanupEffect × ExitCause :=
  (final_cleanup e gccExists waitTimedOut cwd sock, e)

/-- Modelled from the claim wording of C8: path `p` lies under directory
`root` (is `root` itself or has `root` followed by a path separator as a
prefix). -/
def liesUnder (root p : List Nat) : Bool :=
  p == root || (root ++ [47]).isPrefixOf p

/-- The per-cycle external inputs of one iteration of `kernel_loop`
(lines 481-501): the registrations collected, both builds' exchanges and
exit statuses, the nm report, the gprof report, and the delivery oracle
for result datagrams. -/
structure CycleInput where
  regs : List (List Nat × List Nat)
  sizeBuild : BuildInput
  nmInfo : List (List Nat × Nat)
  instrBuild : BuildInput
  noTime : Bool
  gprofRows : List (List Nat × Rat × Rat)
  del : List Nat → Bool

/-- The kernel's per-cycle mutable tables (attributes of the Python
object surviving between cycles). -/
structure KState where
  active : List (List Nat × List Nat)
  embeddings : List (List Nat × List Nat)
  sizes : List (List Nat × Nat)
  runtimes : List (List Nat × (Rat × Rat))

/-- One iteration of `kernel_loop` (lines 481-501), started from the
previous cycle's table state `s`. Each phase rebuilds its table from
scratch exactly where the source resets it: `active_funcs_lists = {}`
at line 386, `embeddings = {}` at line 425, `sizes = {}` at line 216,
`runtimes = {}` at lines 268 and 500 — so `s` is never read. -/
def cycle (kid : KernelId) (syms longFuns : List (List Nat)) (inp : CycleInput) (s : KState) :
    Except KErr (List SendEvent × KState) := do
  let active ← gather_regs kid syms inp.regs
  let embs ← compile_for_size kid active inp.sizeBuild
  let sizes := get_sizes kid inp.nmInfo
  let rts ←
    if cycleRunsInstrumented active longFuns then do
      let _ ← compile_instrumented kid active embs inp.instrBuild
      pure (get_runtimes kid active inp.noTime inp.gprofRows)
    else pure []
  let (evs, sizesF) ← sendout_profiles kid inp.del active sizes rts embs
  pure (evs, ⟨active, embs, sizesF, rts⟩)

/-! ## Helper lemmas -/

/-- The SHA-256 digest always has 32 bytes (eight 4-byte words). -/
theorem sha256_length (msg : List Nat) : (sha256 msg).length = 32 := by
  simp [sha256, sha8Bytes, wordBE4]

/-- base64 output length: four characters per started triple of input
bytes. -/
theorem b64encodeUrl_length (l : List Nat) :
    (b64encodeUrl l).length = 4 * ((l.length + 2) / 3) := by
  induction l using b64encodeUrl.induct <;> simp [b64encodeUrl, *] <;> omega

/-- Every alphabet lookup lands in the alphabet. -/
theorem b64char_mem (n : Nat) : b64char n ∈ b64Alphabet := by
  unfold b64char
  rcases h : b64Alphabet.get? n with _ | x
  · rw [List.getD_eq_getD_get?, h]; decide
  · rw [List.getD_eq_getD_get?, h]
    exact List.get?_mem h

/-- Every byte of a base64 encoding is an alphabet character or the
padding byte 61. -/
theorem b64encodeUrl_mem (l : List Nat) :
    ∀ x ∈ b64encodeUrl l, x ∈ b64Alphabet ∨ x = 61 := by
  induction l using b64encodeUrl.induct with
  | case1 => simp [b64encodeUrl]
  | case2 b => simp [b64encodeUrl, b64char_mem]
  | case3 b c => simp [b64encodeUrl, b64char_mem]
  | case4 b c d rest ih =>
    intro x hx
    simp only [b64encodeUrl, List.mem_cons] at hx
    rcases hx with h | h | h | h | h
    · exact Or.inl (h ▸ b64char_mem _)
    · exact Or.inl (h ▸ b64char_mem _)
    · exact Or.inl (h ▸ b64char_mem _)
    · exact Or.inl (h ▸ b64char_mem _)
    · exact ih x h

/-- No alphabet character is NUL, `:`, `.` or newline. -/
theorem b64Alphabet_chars : ∀ x ∈ b64Alphabet, x ≠ 0 ∧ x ≠ 58 ∧ x ≠ 46 ∧ x ≠ 10 := by decide

/-- A hashed token has exactly 44 characters. -/
theorem hash_token_length (s : List Nat) : (b64encodeUrl (sha256 s)).length = 44 := by
  rw [b64encodeUrl_length, sha256_length]

/-- Characters of `takeWhile` output satisfy the predicate. -/
theorem stripDot_noDot (s : List Nat) : ∀ c ∈ stripDot s, c ≠ 46 := by
  intro c hc
  have := List.mem_takeWhile_imp hc
  simpa using this

/-- `takeWhile` is the identity on lists all of whose elements pass. -/
theorem takeWhile_of_all {p : Nat → Bool} :
    ∀ l : List Nat, (∀ x ∈ l, p x = true) → l.takeWhile p = l := by
  intro l h
  induction l with
  | nil => rfl
  | cons a t ih =>
    rw [List.takeWhile_cons, h a (List.mem_cons_self a t)]
    exact congrArg (a :: ·) (ih fun x hx => h x (List.mem_cons_of_mem a hx))

/-- Stripping the clone suffix is idempotent. -/
theorem stripDot_idem (s : List Nat) : stripDot (stripDot s) = stripDot s :=
  takeWhile_of_all _ fun x hx => by
    simpa using stripDot_noDot s x hx

/-- A hashed token contains no dot, so stripping is the identity on it. -/
theorem stripDot_hash_token (s : List Nat) :
    stripDot (b64encodeUrl (sha256 s)) = b64encodeUrl (sha256 s) :=
  takeWhile_of_all _ fun x hx => by
    rcases b64encodeUrl_mem _ x hx with h | h
    · simpa using (b64Alphabet_chars x h).2.2.1
    · simp [h]

/-- Dict lookup after assignment of the same key. -/
theorem lookupA_insertA_self {α : Type} (m : List (List Nat × α)) (k : List Nat) (v : α) :
    lookupA (insertA m k v) k = some v := by
  induction m with
  | nil => simp [insertA, lookupA]
  | cons p rest ih =>
    by_cases h : p.1 = k <;> simp [insertA, lookupA, h, ih]

/-- Dict lookup after assignment of a different key. -/
theorem lookupA_insertA_ne {α : Type} (m : List (List Nat × α)) (k k' : List Nat) (v : α)
    (h : k' ≠ k) : lookupA (insertA m k v) k' = lookupA m k' := by
  induction m with
  | nil => simp [insertA, lookupA, Ne.symm h]
  | cons p rest ih =>
    by_cases hp : p.1 = k
    · subst hp
      simp [insertA, lookupA, Ne.symm h]
    · by_cases hp' : p.1 = k' <;> simp [insertA, lookupA, hp, hp', ih, h]

/-- The canonical address determines the token. -/
theorem canonAddr_inj (kid : KernelId) : Function.Injective (canonAddr kid) := by
  intro x y h
  simp only [canonAddr, List.cons.injEq, true_and] at h
  have h1 := List.append_cancel_right h
  have h2 := List.append_cancel_right h1
  exact List.append_cancel_left h2

/-- `firstIdxFrom` misses iff no element satisfies the predicate. -/
theorem firstIdxFrom_eq_none {α : Type} (p : α → Bool) :
    ∀ (l : List α) (i : Nat), (∀ x ∈ l, p x = false) → firstIdxFrom p i l = none := by
  intro l
  induction l with
  | nil => intro i _; rfl
  | cons a t ih =>
    intro i h
    rw [firstIdxFrom, h a (List.mem_cons_self a t)]
    exact ih (i + 1) fun x hx => h x (List.mem_cons_of_mem a hx)

/-- Branch unfolding of `encode_fun_name`, hash case. -/
theorem encode_hash (kid : KernelId) (n : List Nat)
    (h : ((stripDot n).length : Int) >
          107 - (kid.bench.length : Int) - ((decimalRepr kid.inst).length : Int) - 2
        ∨ (stripDot n).length > 100) :
    encode_fun_name kid n = b64encodeUrl (sha256 (stripDot n)) := by
  unfold encode_fun_name
  exact if_pos h

/-- Branch unfolding of `encode_fun_name`, keep case. -/
theorem encode_keep (kid : KernelId) (n : List Nat)
    (h : ¬ (((stripDot n).length : Int) >
          107 - (kid.bench.length : Int) - ((decimalRepr kid.inst).length : Int) - 2
        ∨ (stripDot n).length > 100)) :
    encode_fun_name kid n = stripDot n := by
  unfold encode_fun_name
  exact if_neg h

/-- Claim C1, counterexample. With a 7-byte benchmark name and instance 1
the claim's budget is 108 - 7 - 1 - 2 = 98, so a dot-free 98-character
name is within budget and should be returned unchanged; the code's
budget is 107 - 7 - 1 - 2 = 97, so it hashes that name (the returned
44-character token cannot equal the 98-character input). -/
theorem c1_counterexample :
    encodeSpec108 ⟨List.replicate 7 98, 1⟩ (List.replicate 98 97) = List.replicate 98 97
    ∧ encode_fun_name ⟨List.replicate 7 98, 1⟩ (List.replicate 98 97) ≠ List.replicate 98 97 := by
  constructor
  · decide
  · have he := encode_hash ⟨List.replicate 7 98, 1⟩ (List.replicate 98 97) (Or.inl (by decide))
    intro hEq
    rw [he] at hEq
    have hlen := congrArg List.length hEq
    rw [hash_token_length] at hlen
    simp at hlen

/-- Claim C1 (corrected: the code computes the budget from 107, not
108). For every function name, `encode_fun_name` strips the suffix
after the first dot; with budget 107 - len(bench) - len(str(instance)) - 2,
a stripped name longer than the budget or longer than 100 characters is
replaced by the base64url-encoded SHA-256 digest, and any other name is
returned unchanged. -/
theorem c1_encode_matches_spec (kid : KernelId) (n : List Nat) :
    encode_fun_name kid n = encodeSpecFixed kid n := by
  unfold encode_fun_name encodeSpecFixed
  split_ifs <;> first | rfl | (exfalso; omega)

/-- Claim C6, counterexample. With a 90-byte benchmark name and instance
1, a 50-byte function name is over budget, hashes to a 44-character
token, and the composed peer address has 138 > 108 bytes. -/
theorem c6_counterexample :
    108 < (canonAddr ⟨List.replicate 90 98, 1⟩
      (encode_fun_name ⟨List.replicate 90 98, 1⟩ (List.replicate 50 97))).length := by
  have he := encode_hash ⟨List.replicate 90 98, 1⟩ (List.replicate 50 97) (Or.inl (by decide))
  have hd : (decimalRepr 1).length = 1 := by decide
  rw [he]
  simp [canonAddr, hash_token_length, hd]

/-- Claim C6 (corrected: the 108-byte bound on the composed address
holds for every name only when len(bench) + len(str(instance)) ≤ 61;
otherwise an over-budget name hashes to a 44-character token and the
composed address exceeds 108 bytes, as the counterexample shows).
For every name: the token has length ≤ 100; encoding is deterministic;
under the identity-size precondition the composed peer address has at
most 108 bytes; and every over-budget name yields a token of fixed
length 44 whose characters all come from the base64url alphabet plus
padding, none of them NUL, `:`, `.` or newline. -/
theorem c6_encode_bounds (kid : KernelId) (n m : List Nat) :
    (encode_fun_name kid n).length ≤ 100
    ∧ (n = m → encode_fun_name kid n = encode_fun_name kid m)
    ∧ (kid.bench.length + (decimalRepr kid.inst).length ≤ 61 →
        (canonAddr kid (encode_fun_name kid n)).length ≤ 108)
    ∧ ((((stripDot n).length : Int) >
          107 - (kid.bench.length : Int) - ((decimalRepr kid.inst).length : Int) - 2
        ∨ (stripDot n).length > 100) →
        (encode_fun_name kid n).length = 44
        ∧ ∀ c ∈ encode_fun_name kid n,
            (c ∈ b64Alphabet ∨ c = 61) ∧ c ≠ 0 ∧ c ≠ 58 ∧ c ≠ 46 ∧ c ≠ 10) := by
  refine ⟨?_, fun h => by rw [h], ?_, ?_⟩
  · by_cases hc : (((stripDot n).length : Int) >
        107 - (kid.bench.length : Int) - ((decimalRepr kid.inst).length : Int) - 2
      ∨ (stripDot n).length > 100)
    · rw [encode_hash kid n hc, hash_token_length]
      omega
    · rw [encode_keep kid n hc]
      push_neg at hc
      exact hc.2
  · intro hb
    by_cases hc : (((stripDot n).length : Int) >
        107 - (kid.bench.length : Int) - ((decimalRepr kid.inst).length : Int) - 2
      ∨ (stripDot n).length > 100)
    · rw [encode_hash kid n hc]
      simp only [canonAddr, List.length_cons, List.length_append, hash_token_length,
        List.length_nil]
      omega
    · rw [encode_keep kid n hc]
      push_neg at hc
      simp only [canonAddr, List.length_cons, List.length_append, List.length_nil]
      omega
  · intro hc
    rw [encode_hash kid n hc]
    refine ⟨hash_token_length _, ?_⟩
    intro c hcm
    rcases b64encodeUrl_mem _ c hcm with h | h
    · have := b64Alphabet_chars c h
      exact ⟨Or.inl h, this.1, this.2.1, this.2.2.1, this.2.2.2⟩
    · subst h
      refine ⟨Or.inr rfl, by omega, by omega, by omega, by omega⟩

/-- Claim C6 witness: a concrete over-budget name at a small identity
satisfies all three bounds. -/
theorem c6_encode_bounds_witness :
    (encode_fun_name ⟨[98, 109], 1⟩ (List.replicate 101 97)).length ≤ 100
    ∧ (canonAddr ⟨[98, 109], 1⟩ (encode_fun_name ⟨[98, 109], 1⟩ (List.replicate 101 97))).length ≤ 108
    ∧ (encode_fun_name ⟨[98, 109], 1⟩ (List.replicate 101 97)).length = 44 := by
  obtain ⟨h1, _, h3, h4⟩ :=
    c6_encode_bounds ⟨[98, 109], 1⟩ (List.replicate 101 97) (List.replicate 101 97)
  exact ⟨h1, h3 (by decide), (h4 (Or.inr (by decide))).1⟩

/-- Claim C10 (confirmed): under the precondition
len(bench) + len(str(instance)) ≤ 61 (the 44-character hash token fits
the budget), `encode_fun_name` is idempotent. -/
theorem c10_encode_idempotent (kid : KernelId) (n : List Nat)
    (h : kid.bench.length + (decimalRepr kid.inst).length ≤ 61) :
    encode_fun_name kid (encode_fun_name kid n) = encode_fun_name kid n := by
  by_cases hc : (((stripDot n).length : Int) >
      107 - (kid.bench.length : Int) - ((decimalRepr kid.inst).length : Int) - 2
    ∨ (stripDot n).length > 100)
  · rw [encode_hash kid n hc]
    have hs := stripDot_hash_token (stripDot n)
    have hlen : (stripDot (b64encodeUrl (sha256 (stripDot n)))).length = 44 := by
      rw [hs, hash_token_length]
    rw [encode_keep kid (b64encodeUrl (sha256 (stripDot n))) (by rw [hlen]; push_neg; omega), hs]
  · rw [encode_keep kid n hc]
    rw [encode_keep kid (stripDot n) (by rw [stripDot_idem]; exact hc), stripDot_idem]

/-- Claim C10 witness: idempotence at a concrete short name and small
identity. -/
theorem c10_encode_idempotent_witness :
    encode_fun_name ⟨[98, 109], 1⟩ (encode_fun_name ⟨[98, 109], 1⟩ [102, 111, 111])
      = encode_fun_name ⟨[98, 109], 1⟩ [102, 111, 111] :=
  c10_encode_idempotent ⟨[98, 109], 1⟩ [102, 111, 111] (by decide)

/-- Characterization of the probe loop: it always attempts exactly the
prefix of symbols up to and including the first deliverable one (the
whole list when none delivers), each probe a zero-length datagram to the
canonical address, and the flag records whether some probe delivered. -/
theorem probe_pass_spec (kid : KernelId) (del : List Nat → Bool) (syms : List (List Nat)) :
    probe_pass kid del syms =
      (if ((syms.takeWhile (fun s => !(del (canonAddr kid s)))).length = syms.length)
       then (syms.map (fun s => (([] : List Nat), canonAddr kid s)), false)
       else ((syms.take ((syms.takeWhile (fun s => !(del (canonAddr kid s)))).length + 1)).map
               (fun s => (([] : List Nat), canonAddr kid s)), true)) := by
  induction syms with
  | nil => rfl
  | cons s rest ih =>
    by_cases hd : del (canonAddr kid s)
    · rw [probe_pass, if_pos hd]
      have h1 : (List.takeWhile (fun x => !(del (canonAddr kid x))) (s :: rest)).length = 0 := by
        simp [List.takeWhile_cons, hd]
      rw [h1, if_neg (by simp)]
      simp [List.take_succ_cons]
    · rw [probe_pass, if_neg hd]
      have h1 : List.takeWhile (fun x => !(del (canonAddr kid x))) (s :: rest)
          = s :: List.takeWhile (fun x => !(del (canonAddr kid x))) rest := by
        simp [List.takeWhile_cons, hd]
      rw [h1, ih]
      by_cases ht : ((rest.takeWhile (fun x => !(del (canonAddr kid x)))).length = rest.length)
      · rw [if_pos ht, if_pos (by simp [ht])]
        simp
      · rw [if_neg ht, if_neg (by simp [ht])]
        simp [List.take_succ_cons]

/-- Claim C3 (confirmed): when the 60-second first wait times out with
zero registrations, the kernel probes every known symbol's canonical
address in declared order with zero-length datagrams, stopping at the
first accepted delivery and looping back to waiting
(`GatherOutcome.retryWaiting`); when every probe fails, the single
probe pass ends the loop immediately with `exit(0)`
(`GatherOutcome.exitCode 0`) — the probe pass is a total function of
the symbol list, hence terminates. -/
theorem c3_liveness_probe (kid : KernelId) (del : List Nat → Bool) (syms : List (List Nat)) :
    gather_timeout_branch kid del syms =
      (if ((syms.takeWhile (fun s => !(del (canonAddr kid s)))).length = syms.length)
       then (syms.map (fun s => (([] : List Nat), canonAddr kid s)), GatherOutcome.exitCode 0)
       else ((syms.take ((syms.takeWhile (fun s => !(del (canonAddr kid s)))).length + 1)).map
               (fun s => (([] : List Nat), canonAddr kid s)), GatherOutcome.retryWaiting)) := by
  simp only [gather_timeout_branch]
  rw [probe_pass_spec]
  by_cases ht : ((syms.takeWhile (fun s => !(del (canonAddr kid s)))).length = syms.length)
  · simp [ht]
  · simp [ht]

/-- Claim C4 (confirmed): an inbound registration whose sender address
parses into (benchmark, token, instance-digits) is rejected with exit
status 1 when the benchmark differs, the instance differs, or the token
is not a known symbol; otherwise the pass list is recorded under the
token. -/
theorem c4_registration_validation (kid : KernelId) (syms : List (List Nat))
    (passList addr : List Nat) (active : List (List Nat × List Nat))
    (b t d : List Nat)
    (hp : pyMatchAddr addr = some (b, t, d)) (hd : d ≠ []) :
    (b ≠ kid.bench → add_env_to_list kid syms passList addr active = .error .badBench)
    ∧ (b = kid.bench → digitsToNat d ≠ kid.inst →
        add_env_to_list kid syms passList addr active = .error .badInstance)
    ∧ (b = kid.bench → digitsToNat d = kid.inst → ¬ t ∈ syms →
        add_env_to_list kid syms passList addr active = .error .badSymbol)
    ∧ (b = kid.bench → digitsToNat d = kid.inst → t ∈ syms →
        add_env_to_list kid syms passList addr active = .ok (insertA active t passList))
    ∧ (∀ er, add_env_to_list kid syms passList addr active = .error er → er.exitStatus = 1) := by
  refine ⟨?_, ?_, ?_, ?_, fun er _ => rfl⟩
  · intro hb
    simp [add_env_to_list, hp, hb]
  · intro hb hi
    simp [add_env_to_list, hp, hb, hd, hi]
  · intro hb hi hs
    simp [add_env_to_list, hp, hb, hd, hi, hs]
  · intro hb hi hs
    simp [add_env_to_list, hp, hb, hd, hi, hs]

/-- Claim C4 witness: a concrete valid registration from
`\0b:foo_5` is recorded; pyMatchAddr parses it as expected. -/
theorem c4_registration_validation_witness :
    add_env_to_list ⟨[98], 5⟩ [[102, 111, 111]] [1, 2]
        [0, 98, 58, 102, 111, 111, 95, 53] []
      = .ok (insertA [] [102, 111, 111] [1, 2]) := by
  obtain ⟨_, _, _, h4, _⟩ :=
    c4_registration_validation ⟨[98], 5⟩ [[102, 111, 111]] [1, 2]
      [0, 98, 58, 102, 111, 111, 95, 53] [] [98] [102, 111, 111] [53]
      (by decide) (by decide)
  exact h4 rfl (by decide) (by decide)

/-- Claim C5, counterexample: in the instrumented pass, a query for a
registered function is answered with its pass list, yet the received
feature payload is dropped — nothing is stored under the encoded name
(the plain pass, by contrast, stores the length-tagged payload). -/
theorem c5_counterexample :
    (instrumented_step ⟨[98, 109], 1⟩ [([102], [7])] [] ⟨[102], [9, 9]⟩).1 = [7]
    ∧ lookupA (instrumented_step ⟨[98, 109], 1⟩ [([102], [7])] [] ⟨[102], [9, 9]⟩).2
        (encode_fun_name ⟨[98, 109], 1⟩ [102]) = none
    ∧ lookupA (size_pass_step ⟨[98, 109], 1⟩ [([102], [7])] [] ⟨[102], [9, 9]⟩).2
        (encode_fun_name ⟨[98, 109], 1⟩ [102])
      = some (int32le 2 ++ [9, 9]) := by
  decide

/-- Claim C5 (corrected: only the plain size pass stores the feature
payload; the instrumented pass receives and discards it). In either
pass, a query whose encoded name is a key of the frozen table is
answered with exactly the stored pass-list bytes, and a query whose
encoded name is not a key is answered with the single zero byte; the
plain pass then stores the length-tagged payload under the encoded
name, while the instrumented pass leaves the embeddings table
unchanged. -/
theorem c5_bridge_queries (kid : KernelId) (active embs : List (List Nat × List Nat))
    (q : GccQuery) :
    (∀ pl, lookupA active (encode_fun_name kid q.raw) = some pl →
        size_pass_step kid active embs q =
          (pl, insertA embs (encode_fun_name kid q.raw) (int32le q.payload.length ++ q.payload))
        ∧ instrumented_step kid active embs q = (pl, embs))
    ∧ (lookupA active (encode_fun_name kid q.raw) = none →
        size_pass_step kid active embs q = (([0] : List Nat), embs)
        ∧ instrumented_step kid active embs q = (([0] : List Nat), embs)) := by
  constructor
  · intro pl hl
    constructor <;> simp [size_pass_step, instrumented_step, hl]
  · intro hl
    constructor <;> simp [size_pass_step, instrumented_step, hl]

/-- Claim C5 witness: concrete found and not-found queries behave as the
amended claim states. -/
theorem c5_bridge_queries_witness :
    (size_pass_step ⟨[98, 109], 1⟩ [([102], [7])] [] ⟨[102], [9, 9]⟩ =
      ([7], insertA [] (encode_fun_name ⟨[98, 109], 1⟩ [102]) (int32le 2 ++ [9, 9]))
    ∧ instrumented_step ⟨[98, 109], 1⟩ [([102], [7])] [] ⟨[102], [9, 9]⟩ = ([7], []))
    ∧ (size_pass_step ⟨[98, 109], 1⟩ [([102], [7])] [] ⟨[103], []⟩ = (([0] : List Nat), [])
    ∧ instrumented_step ⟨[98, 109], 1⟩ [([102], [7])] [] ⟨[103], []⟩ = (([0] : List Nat), [])) := by
  constructor
  · exact (c5_bridge_queries ⟨[98, 109], 1⟩ [([102], [7])] [] ⟨[102], [9, 9]⟩).1 [7] (by decide)
  · exact (c5_bridge_queries ⟨[98, 109], 1⟩ [([102], [7])] [] ⟨[103], []⟩).2 (by decide)

/-- After folding constant-valued insertions, every inserted key (and
every key already bound to the constant) looks up to the constant. -/
theorem lookup_foldl_insert_const {β : Type} (v : β) (f : List Nat × List Nat → List Nat) :
    ∀ (l : List (List Nat × List Nat)) (m : List (List Nat × β)) (k : List Nat),
      (k ∈ l.map f ∨ lookupA m k = some v) →
      lookupA (l.foldl (fun m p => insertA m (f p) v) m) k = some v := by
  intro l
  induction l with
  | nil =>
    intro m k h
    rcases h with h | h
    · simp at h
    · simpa using h
  | cons p rest ih =>
    intro m k h
    rw [List.foldl_cons]
    apply ih
    rcases h with h | h
    · rw [List.map_cons, List.mem_cons] at h
      rcases h with h | h
      · right
        subst h
        exact lookupA_insertA_self ..
      · left
        exact h
    · right
      by_cases hk : k = f p
      · subst hk
        exact lookupA_insertA_self ..
      · rw [lookupA_insertA_ne _ _ _ _ hk]
        exact h

/-- Claim C7 (confirmed): the instrumented pass runs iff the active set
meets the long-running subset; a descriptor without the
`long_functions:` marker makes every known symbol long-running; and a
no-accumulated-time profiler report assigns every active function the
zero runtime record (keys of the frozen table are already encoded, so
re-encoding fixes them under the C10 precondition). -/
theorem c7_runtime_pass_gating (kid : KernelId) (lines : List (List Nat))
    (active : List (List Nat × List Nat)) (longFuns : List (List Nat))
    (rows : List (List Nat × Rat × Rat)) :
    (cycleRunsInstrumented active longFuns = true ↔ ∃ p ∈ active, p.1 ∈ longFuns)
    ∧ (longMarker ∉ lines → ∀ bs lf, initSymbols kid lines = some (bs, lf) → lf = bs)
    ∧ (∀ k pl, (k, pl) ∈ active → encode_fun_name kid k = k →
        lookupA (get_runtimes kid active true rows) k = some ((0 : Rat), (0 : Rat))) := by
  refine ⟨?_, ?_, ?_⟩
  · simp [cycleRunsInstrumented, List.any_eq_true]
  · intro hnm bs lf hinit
    have hnone : firstIdxFrom (fun l => l == longMarker) 0 lines = none :=
      firstIdxFrom_eq_none _ lines 0 (fun x hx => by
        rw [beq_eq_false_iff_ne]
        exact fun hh => hnm (hh ▸ hx))
    unfold initSymbols at hinit
    rcases hf : firstIdxFrom (fun l => l == funMarker) 0 lines with _ | fi <;> rw [hf] at hinit
    · exact absurd hinit (by simp)
    · rw [hnone] at hinit
      simp only [Option.some.injEq, Prod.mk.injEq] at hinit
      rw [← hinit.1, ← hinit.2]
  · intro k pl hmem hfix
    simp only [get_runtimes, if_true]
    exact lookup_foldl_insert_const ((0 : Rat), (0 : Rat)) (fun p => encode_fun_name kid p.1)
      active [] k (Or.inl (List.mem_map.mpr ⟨(k, pl), hmem, hfix⟩))

/-- Claim C7 witness: concrete instances of all three conjuncts. -/
theorem c7_runtime_pass_gating_witness :
    (cycleRunsInstrumented [([102], [1])] [[102]] = true)
    ∧ (∀ bs lf, initSymbols ⟨[98], 1⟩ [funMarker, [102]] = some (bs, lf) → lf = bs)
    ∧ lookupA (get_runtimes ⟨[98], 1⟩ [([102], [1])] true []) [102]
        = some ((0 : Rat), (0 : Rat)) := by
  obtain ⟨h1, h2, h3⟩ :=
    c7_runtime_pass_gating ⟨[98], 1⟩ [funMarker, [102]] [([102], [1])] [[102]] []
  refine ⟨?_, h2 (by decide), h3 [102] [1] (by decide) (by decide)⟩
  exact h1.mpr ⟨([102], [1]), by decide, by decide⟩

/-- Claim C8, counterexample: the working directory `/tmpx` does not lie
under `/tmp` (nor `/run`), yet the cleanup removes it recursively
instead of unlinking only the kernel socket, because the code tests
`cwd.startswith("/tmp")`. -/
theorem c8_counterexample :
    liesUnder tmpRoot [47, 116, 109, 112, 120] = false
    ∧ liesUnder runRoot [47, 116, 109, 112, 120] = false
    ∧ CleanupEffect.rmtreeCwd [47, 116, 109, 112, 120] ∈
        final_cleanup .otherError false false [47, 116, 109, 112, 120] [107]
    ∧ CleanupEffect.unlinkSocket [107] ∉
        final_cleanup .otherError false false [47, 116, 109, 112, 120] [107] := by
  decide

/-- Claim C8 (corrected: the scratch test is a string-prefix test
`cwd.startswith("/tmp") or cwd.startswith("/run")`, not a lies-under
test — `/tmpx` is also removed recursively). On every exit cause caught
by the kernel loop, the cleanup routine runs exactly once and re-raises
the same cause; it waits on the compiler subprocess exactly when one
exists (whether or not the wait times out); when the working directory's
path starts with /tmp or /run it is removed recursively and the socket
is not unlinked, and otherwise only the kernel's own socket is
unlinked. -/
theorem c8_cleanup_guarantees (e : ExitCause) (gccE wT : Bool) (cwd sock : List Nat) :
    (kernel_loop_exit e gccE wT cwd sock).1 = final_cleanup e gccE wT cwd sock
    ∧ (kernel_loop_exit e gccE wT cwd sock).2 = e
    ∧ (CleanupEffect.waitGcc wT ∈ final_cleanup e gccE wT cwd sock ↔ gccE = true)
    ∧ ((tmpRoot.isPrefixOf cwd || runRoot.isPrefixOf cwd) = true →
        (final_cleanup e gccE wT cwd sock).count (CleanupEffect.rmtreeCwd cwd) = 1
        ∧ ∀ s2, CleanupEffect.unlinkSocket s2 ∉ final_cleanup e gccE wT cwd sock)
    ∧ ((tmpRoot.isPrefixOf cwd || runRoot.isPrefixOf cwd) = false →
        (final_cleanup e gccE wT cwd sock).count (CleanupEffect.unlinkSocket sock) = 1
        ∧ ∀ c2, CleanupEffect.rmtreeCwd c2 ∉ final_cleanup e gccE wT cwd sock) := by
  refine ⟨rfl, rfl, ?_, ?_, ?_⟩
  · unfold final_cleanup
    by_cases h1 : e = ExitCause.systemExit 1 <;> by_cases h2 : gccE <;>
      by_cases h3 : (tmpRoot.isPrefixOf cwd || runRoot.isPrefixOf cwd) = true <;>
      simp_all
  · intro hpre
    unfold final_cleanup
    by_cases h1 : e = ExitCause.systemExit 1 <;> by_cases h2 : gccE <;>
      simp_all [List.count_append, List.count_cons, List.count_nil]
  · intro hpre
    unfold final_cleanup
    by_cases h1 : e = ExitCause.systemExit 1 <;> by_cases h2 : gccE <;>
      simp_all [List.count_append, List.count_cons, List.count_nil]

/-- Claim C8 witness: a concrete scratch-rooted cleanup removes the
working directory exactly once, after waiting on the live subprocess. -/
theorem c8_cleanup_guarantees_witness :
    (final_cleanup (ExitCause.systemExit 0) true true [47, 116, 109, 112, 47, 120] [107]).count
        (CleanupEffect.rmtreeCwd [47, 116, 109, 112, 47, 120]) = 1
    ∧ CleanupEffect.waitGcc true ∈
        final_cleanup (ExitCause.systemExit 0) true true [47, 116, 109, 112, 47, 120] [107] := by
  obtain ⟨_, _, h3, h4, _⟩ :=
    c8_cleanup_guarantees (ExitCause.systemExit 0) true true [47, 116, 109, 112, 47, 120] [107]
  exact ⟨(h4 (by decide)).1, h3.mpr rfl⟩

/-- Claim C9 (confirmed): one cycle's observable result — the dispatched
datagrams and the rebuilt tables — is a function of the cycle's inputs
alone; the previous cycle's `ActiveFuncsLists`, embeddings, `SizeTable`
and `RuntimeTable` are all reset before any read (source lines 386, 425,
216, 268, 500), so the result does not depend on the inherited state. -/
theorem c9_cycle_state_independence (kid : KernelId) (syms longFuns : List (List Nat))
    (inp : CycleInput) (s1 s2 : KState) :
    cycle kid syms longFuns inp s1 = cycle kid syms longFuns inp s2 := rfl

/-- `flatMap` congruence on the function. -/
theorem flatMap_congr {α β : Type} (l : List α) (f g : α → List β)
    (h : ∀ x ∈ l, f x = g x) : l.flatMap f = l.flatMap g := by
  induction l with
  | nil => rfl
  | cons a t ih =>
    rw [List.flatMap_cons, List.flatMap_cons, h a (List.mem_cons_self ..),
      ih fun x hx => h x (List.mem_cons_of_mem _ hx)]

/-- The predicted attempt depends on the size table only through the
key's lookup. -/
theorem expectedAttempt_size_congr (kid : KernelId) (del : List Nat → Bool)
    (sizes sizes' : List (List Nat × Nat)) (rts : List (List Nat × (Rat × Rat)))
    (embs : List (List Nat × List Nat)) (k : List Nat)
    (h : lookupA sizes k = lookupA sizes' k) :
    expectedAttempt kid del sizes rts embs k = expectedAttempt kid del sizes' rts embs k := by
  unfold expectedAttempt
  rw [h]

/-- Unfolding of the predicted event list at a cons cell. -/
theorem expectedEvents_cons (kid : KernelId) (del : List Nat → Bool)
    (sizes : List (List Nat × Nat)) (rts : List (List Nat × (Rat × Rat)))
    (embs : List (List Nat × List Nat)) (p : List Nat × List Nat)
    (rest : List (List Nat × List Nat)) :
    expectedEvents kid del sizes rts embs (p :: rest) =
      ((if lookupA sizes p.1 = none then [SendEvent.sizeMissing p.1] else []) ++
        [expectedAttempt kid del sizes rts embs p.1]) ++
      expectedEvents kid del sizes rts embs rest := by
  simp [expectedEvents]

/-- The dispatch loop with full embedding coverage and distinct keys
terminates without error and emits exactly the predicted events. -/
theorem sendout_profiles_spec (kid : KernelId) (del : List Nat → Bool) :
    ∀ (active : List (List Nat × List Nat)) (sizes : List (List Nat × Nat))
      (rts : List (List Nat × (Rat × Rat))) (embs : List (List Nat × List Nat)),
      (∀ p ∈ active, lookupA embs p.1 ≠ none) →
      (active.map Prod.fst).Nodup →
      ∃ szF, sendout_profiles kid del active sizes rts embs =
        .ok (expectedEvents kid del sizes rts embs active, szF) := by
  intro active
  induction active with
  | nil =>
    intro sizes rts embs _ _
    exact ⟨sizes, rfl⟩
  | cons p rest ih =>
    intro sizes rts embs hemb hnd
    rw [List.map_cons, List.nodup_cons] at hnd
    obtain ⟨e, he⟩ : ∃ e, lookupA embs p.1 = some e := by
      rcases h : lookupA embs p.1 with _ | e
      · exact absurd h (hemb p (List.mem_cons_self ..))
      · exact ⟨e, rfl⟩
    obtain ⟨szF, hrec⟩ :=
      ih (if lookupA sizes p.1 = none then insertA sizes p.1 0 else sizes) rts embs
        (fun q hq => hemb q (List.mem_cons_of_mem _ hq)) hnd.2
    refine ⟨szF, ?_⟩
    have hrest : ∀ q ∈ rest,
        lookupA (if lookupA sizes p.1 = none then insertA sizes p.1 0 else sizes) q.1 =
          lookupA sizes q.1 := by
      intro q hq
      by_cases hn : lookupA sizes p.1 = none
      · rw [if_pos hn, lookupA_insertA_ne]
        intro hh
        exact hnd.1 (hh ▸ List.mem_map_of_mem Prod.fst hq)
      · rw [if_neg hn]
    have hcong : expectedEvents kid del
        (if lookupA sizes p.1 = none then insertA sizes p.1 0 else sizes) rts embs rest =
        expectedEvents kid del sizes rts embs rest := by
      apply flatMap_congr
      intro q hq
      rw [hrest q hq, expectedAttempt_size_congr kid del _ sizes rts embs q.1 (hrest q hq)]
    have hsz : (lookupA (if lookupA sizes p.1 = none then insertA sizes p.1 0 else sizes)
        p.1).getD 0 = (lookupA sizes p.1).getD 0 := by
      by_cases hn : lookupA sizes p.1 = none
      · rw [if_pos hn, lookupA_insertA_self, hn]
        rfl
      · rw [if_neg hn]
    simp only [sendout_profiles, he, hrec, hcong]
    rw [expectedEvents_cons]
    simp only [expectedAttempt, he, hsz, Option.getD_some, List.append_assoc,
      List.singleton_append]

/-- The attempted delivery addresses of the predicted events are exactly
the canonical addresses of the active keys, in order. -/
theorem expectedEvents_attempts (kid : KernelId) (del : List Nat → Bool)
    (sizes : List (List Nat × Nat)) (rts : List (List Nat × (Rat × Rat)))
    (embs : List (List Nat × List Nat)) :
    ∀ active : List (List Nat × List Nat),
      (expectedEvents kid del sizes rts embs active).filterMap attemptAddr =
        active.map (fun p => canonAddr kid p.1) := by
  intro active
  induction active with
  | nil => rfl
  | cons p rest ih =>
    rw [expectedEvents_cons, List.filterMap_append, ih, List.map_cons]
    by_cases hn : lookupA sizes p.1 = none <;>
      by_cases hdel : del (canonAddr kid p.1) <;>
      simp [attemptAddr, expectedAttempt, hn, hdel]

/-- In a duplicate-free list, a member occurs exactly once. -/
theorem nodup_count_one {α : Type} [BEq α] [LawfulBEq α] (l : List α) (a : α)
    (hn : l.Nodup) (ha : a ∈ l) : l.count a = 1 := by
  induction l with
  | nil => cases ha
  | cons x t ih =>
    rw [List.nodup_cons] at hn
    rw [List.count_cons]
    rcases List.mem_cons.mp ha with h | h
    · subst h
      have hz : t.count a = 0 := List.count_eq_zero.mpr hn.1
      simp [hz]
    · have hxa : ¬x = a := fun hh => hn.1 (hh ▸ h)
      rw [ih hn.2 h]
      simp [hxa]

/-- Claim C2 (confirmed): for every key of the frozen table (keys are
distinct by dict construction) with a stored embedding, the dispatch
loop makes exactly one delivery attempt to the key's canonical address,
carrying the stored length-tagged embedding and a profile record whose
size defaults to 0 with a `sizeMissing` diagnostic when the key is
absent from the size table and whose runtime defaults to (0, 0) when
absent from the runtime table; a refused delivery is logged as
`deliveryFailed` and the remaining keys still get their attempts. -/
theorem c2_result_dispatch (kid : KernelId) (del : List Nat → Bool)
    (active : List (List Nat × List Nat)) (sizes : List (List Nat × Nat))
    (rts : List (List Nat × (Rat × Rat))) (embs : List (List Nat × List Nat))
    (hemb : ∀ p ∈ active, lookupA embs p.1 ≠ none)
    (hnd : (active.map Prod.fst).Nodup) :
    (∃ szF, sendout_profiles kid del active sizes rts embs =
      .ok (expectedEvents kid del sizes rts embs active, szF))
    ∧ ∀ p ∈ active,
        ((expectedEvents kid del sizes rts embs active).filterMap attemptAddr).count
          (canonAddr kid p.1) = 1 := by
  refine ⟨sendout_profiles_spec kid del active sizes rts embs hemb hnd, ?_⟩
  intro p hp
  rw [expectedEvents_attempts]
  have hmm : active.map (fun q => canonAddr kid q.1) = (active.map Prod.fst).map (canonAddr kid) := by
    rw [List.map_map]
    rfl
  rw [hmm]
  exact nodup_count_one _ _ (hnd.map (canonAddr_inj kid))
    (List.mem_map_of_mem (canonAddr kid) (List.mem_map_of_mem Prod.fst hp))

/-- Claim C2 witness: two active keys, one with a missing size entry and
one whose delivery is refused; both still get exactly one attempt. -/
theorem c2_result_dispatch_witness :
    (∃ szF, sendout_profiles ⟨[98], 5⟩ (fun a => a == canonAddr ⟨[98], 5⟩ [102])
        [([102], [1]), ([103], [2])] [([102], 10)] [] [([102], [4]), ([103], [6])] =
      .ok (expectedEvents ⟨[98], 5⟩ (fun a => a == canonAddr ⟨[98], 5⟩ [102])
        [([102], 10)] [] [([102], [4]), ([103], [6])] [([102], [1]), ([103], [2])], szF))
    ∧ ∀ p ∈ [([102], [1]), ([103], [2])],
        ((expectedEvents ⟨[98], 5⟩ (fun a => a == canonAddr ⟨[98], 5⟩ [102])
          [([102], 10)] [] [([102], [4]), ([103], [6])]
          [([102], [1]), ([103], [2])]).filterMap attemptAddr).count
            (canonAddr ⟨[98], 5⟩ p.1) = 1 :=
  c2_result_dispatch ⟨[98], 5⟩ (fun a => a == canonAddr ⟨[98], 5⟩ [102])
    [([102], [1]), ([103], [2])] [([102], 10)] [] [([102], [4]), ([103], [6])]
    (by decide) (by decide)
